import Mathlib

/-!
Verification of the resource/port/quota tracker of the ai-lab-platform
backend (ai_lab_backend.py), as a shallow embedding in Lean.

Python dictionaries are modelled as insertion-ordered association lists
(Python dicts preserve insertion order, which matters for iteration in
get_environment_owner and the stop/delete untracking loops).  Python sets
are modelled as Finset Nat.  Operations that can raise are modelled with
Option: none stands for the raised exception.  Wall-clock timestamps are
abstract Nat values.  External effects (the Docker runtime, GPUtil, psutil,
socket binds, filesystem mkdir) are supplied as explicit oracle parameters
describing the observable outcome of each call.
-/

namespace AILab

/-- Lookup in a Python dict modelled as an association list: first binding
for the key, scanning in insertion order. -/
def dictGet {α : Type} (d : List (String × α)) (k : String) : Option α :=
  match d with
  | [] => none
  | (k', v) :: rest => if k' = k then some v else dictGet rest k

/-- Assignment d[k] = v on a Python dict: replace the binding in place if the
key is present, otherwise append the new binding at the end (insertion
order). -/
def dictSet {α : Type} (d : List (String × α)) (k : String) (v : α) :
    List (String × α) :=
  match d with
  | [] => [(k, v)]
  | (k', v') :: rest =>
      if k' = k then (k, v) :: rest else (k', v') :: dictSet rest k v

/-- Deletion of a key from a Python dict; deleting an absent key is a no-op
here (the source always guards del with a membership test). -/
def dictDel {α : Type} (d : List (String × α)) (k : String) :
    List (String × α) :=
  match d with
  | [] => []
  | (k', v) :: rest =>
      if k' = k then dictDel rest k else (k', v) :: dictDel rest k

/-- Decidable check that the list p is a prefix of l, character by
character. -/
def listIsPrefixOf (p l : List Char) : Bool :=
  match p, l with
  | [], _ => true
  | _ :: _, [] => false
  | a :: ps, b :: ls => a = b && listIsPrefixOf ps ls

/-- Substring occurrence on character lists. -/
def listContainsSub (needle hay : List Char) : Bool :=
  match hay with
  | [] => needle.isEmpty
  | _ :: rest => listIsPrefixOf needle hay || listContainsSub needle rest

/-- Python substring test needle in hay, used by the source as
"jupyter" in env_type. -/
def strContains (hay needle : String) : Bool :=
  listContainsSub needle.data hay.data

/-- Quota tier record, from the RESOURCE_QUOTAS table at the top of
ai_lab_backend.py. -/
structure QuotaTier where
  max_gpus : Nat
  max_memory_gb : Nat
  max_cpu_cores : Nat
  max_storage_gb : Nat
  max_environments : Nat
  max_runtime_hours : Nat
  priority : Nat
deriving DecidableEq, Repr

/-- The RESOURCE_QUOTAS table: default / premium / enterprise tiers. -/
def RESOURCE_QUOTAS : List (String × QuotaTier) :=
  [ ("default",    ⟨1, 8, 2, 50, 2, 24, 1⟩),
    ("premium",    ⟨2, 16, 4, 100, 4, 48, 2⟩),
    ("enterprise", ⟨4, 32, 8, 200, 8, 168, 3⟩) ]

/-- Resource requirements of an environment configuration.  min_gpus is
optional; the source defaults it to 1 with .get when gpu_required. -/
structure ResourceRequirements where
  min_memory_gb : Nat
  min_cpu_cores : Nat
  gpu_required : Bool
  min_gpus : Option Nat
deriving DecidableEq, Repr

/-- Environment configuration, from ENVIRONMENT_CONFIGS.  The ports dict
maps a host port (a numeric-string key in the source, parsed with int() when
used) to a container port. -/
structure EnvConfig where
  image : String
  ports : List (Nat × Nat)
  resource_requirements : ResourceRequirements
deriving DecidableEq, Repr

/-- The ENVIRONMENT_CONFIGS table (names and access_url templates elided;
the access URL is recomputed from the allocated port in the create path). -/
def ENVIRONMENT_CONFIGS : List (String × EnvConfig) :=
  [ ("pytorch-jupyter",    ⟨"ai-lab-jupyter", [(8888, 8888)], ⟨4, 1, true, none⟩⟩),
    ("tensorflow-jupyter", ⟨"ai-lab-jupyter", [(8889, 8888)], ⟨4, 1, true, none⟩⟩),
    ("vscode",             ⟨"ai-lab-vscode",  [(8080, 8080)], ⟨2, 1, false, none⟩⟩),
    ("multi-gpu",          ⟨"ai-lab-jupyter", [(8890, 8888)], ⟨8, 2, true, some 2⟩⟩) ]

/-- State of the in-process ResourceManager: the per-user environment lists
(dict user_id -> list of container ids), the start-time map
(dict container_id -> timestamp), and the allocated-port reservation set. -/
structure RMState where
  user_environments : List (String × List String)
  environment_start_times : List (String × Nat)
  allocated_ports : Finset Nat
deriving DecidableEq

/-- The empty initial state built by ResourceManager.__init__. -/
def RMState.init : RMState := ⟨[], [], ∅⟩

/-- The defaulting step shared by check_user_quota and track_environment:
if user_id not in self.user_environments, bind it to the empty list. -/
def ensureUserEntry (s : RMState) (user_id : String) : RMState :=
  match dictGet s.user_environments user_id with
  | some _ => s
  | none => { s with user_environments := dictSet s.user_environments user_id [] }

/-- Number of environments currently tracked for a user (0 when the user has
no entry). -/
def currentEnvCount (s : RMState) (user_id : String) : Nat :=
  ((dictGet s.user_environments user_id).getD []).length

/-- ResourceManager.check_user_quota.  Returns the mutated state (the user
entry is created first) together with some ok-flag, or none when the
quota_type is not a key of RESOURCE_QUOTAS (Python KeyError). -/
def check_user_quota (s : RMState) (user_id quota_type : String) :
    RMState × Option Bool :=
  let s := ensureUserEntry s user_id
  match dictGet RESOURCE_QUOTAS quota_type with
  | none => (s, none)
  | some quota =>
      let current := currentEnvCount s user_id
      if quota.max_environments ≤ current then (s, some false)
      else (s, some true)

/-- ResourceManager.track_environment: append the container to the user's
list and record its start time. -/
def track_environment (s : RMState) (user_id container_id : String)
    (now : Nat) : RMState :=
  let s := ensureUserEntry s user_id
  { s with
    user_environments :=
      dictSet s.user_environments user_id
        (((dictGet s.user_environments user_id).getD []) ++ [container_id]),
    environment_start_times :=
      dictSet s.environment_start_times container_id now }

/-- ResourceManager.get_environment_owner: first user, in dict insertion
order, whose list contains the container. -/
def get_environment_owner (s : RMState) (container_id : String) :
    Option String :=
  (s.user_environments.find? (fun p => decide (container_id ∈ p.2))).map
    Prod.fst

/-- ResourceManager.user_owns_environment. -/
def user_owns_environment (s : RMState) (user_id container_id : String) :
    Bool :=
  match dictGet s.user_environments user_id with
  | none => false
  | some envs => decide (container_id ∈ envs)

/-- ResourceManager.untrack_environment.  When the user has an entry, the
source calls list.remove, which removes the first occurrence and raises
ValueError when the container is absent: that raise is modelled as none (and
the subsequent start-time cleanup does not run).  When the user has no entry
at all, only the start-time cleanup runs. -/
def untrack_environment (s : RMState) (user_id container_id : String) :
    Option RMState :=
  match dictGet s.user_environments user_id with
  | none =>
      some { s with
        environment_start_times :=
          dictDel s.environment_start_times container_id }
  | some envs =>
      if container_id ∈ envs then
        some { s with
          user_environments :=
            dictSet s.user_environments user_id (envs.erase container_id),
          environment_start_times :=
            dictDel s.environment_start_times container_id }
      else none

/-- Oracle for one allocate_port call: the host ports currently bound by
runtime-visible containers (empty when the runtime listing fails, matching
the swallowed exception in the source), and the outcome of the throwaway
test-socket bind on each candidate port. -/
structure PortEnv where
  dockerPorts : Finset Nat
  bindOk : Nat → Bool

/-- The for-loop of ResourceManager.allocate_port: scan candidates in
ascending order; skip ports in the reservation set, then ports bound by
runtime containers; otherwise attempt the test bind and return the port on
success. -/
def findPortAux (s : RMState) (pe : PortEnv) : Nat → Nat → Option Nat
  | _, 0 => none
  | port, fuel + 1 =>
      if port ∈ s.allocated_ports then findPortAux s pe (port + 1) fuel
      else if port ∈ pe.dockerPorts then findPortAux s pe (port + 1) fuel
      else if pe.bindOk port then some port
      else findPortAux s pe (port + 1) fuel

/-- ResourceManager.allocate_port: on success the returned port is added to
the reservation set; none models the raised no-available-port exception.
The source defaults are start_port 8888 and max_attempts 100. -/
def allocate_port (s : RMState) (pe : PortEnv)
    (start_port max_attempts : Nat) : Option (RMState × Nat) :=
  match findPortAux s pe start_port max_attempts with
  | some p => some ({ s with allocated_ports := insert p s.allocated_ports }, p)
  | none => none

/-- ResourceManager.release_port: set.discard, an unconditional removal that
never raises. -/
def release_port (s : RMState) (port : Nat) : RMState :=
  { s with allocated_ports := s.allocated_ports.erase port }

/-- A sequence of allocate_port calls with no intervening releases: each
request carries its own oracle and scan range; failed calls contribute no
port.  Returns the final state and the list of returned ports in order. -/
def allocate_runs (s : RMState) :
    List (PortEnv × Nat × Nat) → RMState × List Nat
  | [] => (s, [])
  | (pe, sp, ma) :: rest =>
      match allocate_port s pe sp ma with
      | some (s', p) =>
          let r := allocate_runs s' rest
          (r.1, p :: r.2)
      | none => allocate_runs s rest

/-- Container status as the source inspects it (the strings running and
paused; everything else is grouped as other). -/
inductive CStatus where
  | running
  | paused
  | other
deriving DecidableEq, Repr

/-- One container's stats payload as read by get_user_resource_usage:
memory_stats.usage in bytes and the length of cpu_stats.cpu_usage
.percpu_usage. -/
structure ContainerStats where
  memory_usage : Nat
  percpu_len : Nat
deriving DecidableEq, Repr

/-- What the runtime reports for one container in the usage loop: its
status, and the stats payload (none when the stats query raises). -/
structure ContainerInfo where
  status : CStatus
  stats : Option ContainerStats
deriving DecidableEq, Repr

/-- Oracle for get_user_resource_usage: containers.get per container id
(none models the raised not-found / query error), and the count of busy GPUs
GPUtil reports (none models a raised GPUtil error). -/
structure DockerEnv where
  containers : String → Option ContainerInfo
  busyGpus : Option Nat

/-- Accumulators of the usage loop. -/
structure UsageAcc where
  total_memory : ℚ
  total_cpu : Nat
  total_gpus : Nat
  running_count : Nat
  paused_count : Nat
deriving DecidableEq, Repr

/-- One iteration of the usage loop.  Note the source increments
running_count before querying stats, so a running container whose stats
query raises still counts as running but contributes no memory/CPU; a
container whose containers.get raises contributes nothing. -/
def usageStep (d : DockerEnv) (acc : UsageAcc) (container_id : String) :
    UsageAcc :=
  match d.containers container_id with
  | none => acc
  | some info =>
      match info.status with
      | .running =>
          let acc := { acc with running_count := acc.running_count + 1 }
          match info.stats with
          | none => acc
          | some st =>
              let acc := { acc with
                total_memory :=
                  acc.total_memory + (st.memory_usage : ℚ) / (1024 ^ 3),
                total_cpu := acc.total_cpu + st.percpu_len }
              match d.busyGpus with
              | some g => { acc with total_gpus := acc.total_gpus + g }
              | none => acc
      | .paused => { acc with paused_count := acc.paused_count + 1 }
      | .other => acc

/-- Rounding to two decimal places, modelling Python round(x, 2) on the
summed memory (ties differ between Python's bankers rounding and round, but
no claim depends on tie behaviour). -/
def round2 (q : ℚ) : ℚ := ((round (q * 100) : ℤ) : ℚ) / 100

/-- The usage report returned by get_user_resource_usage. -/
structure Usage where
  environments : Nat
  running_environments : Nat
  paused_environments : Nat
  total_memory_gb : ℚ
  total_cpu_cores : Nat
  total_gpus : Nat
deriving DecidableEq, Repr

/-- ResourceManager.get_user_resource_usage. -/
def get_user_resource_usage (d : DockerEnv) (s : RMState) (user_id : String) :
    Usage :=
  match dictGet s.user_environments user_id with
  | none => ⟨0, 0, 0, 0, 0, 0⟩
  | some envs =>
      let acc := envs.foldl (usageStep d) ⟨0, 0, 0, 0, 0⟩
      { environments := envs.length
        running_environments := acc.running_count
        paused_environments := acc.paused_count
        total_memory_gb := round2 acc.total_memory
        total_cpu_cores := acc.total_cpu
        total_gpus := acc.total_gpus }

/-- Oracle for check_resource_availability: whether the docker client is
available, the number of GPUs GPUtil reports with memoryUtil below 0.9
(none when GPUtil raises), and psutil's available memory in GB. -/
structure SysEnv where
  docker_available : Bool
  availableGpus : Option Nat
  available_memory_gb : ℚ

/-- The check_resource_availability function.  The docker check precedes the
table lookups; none models a KeyError on either table (the GPU-check
exception branch returns unavailable rather than propagating). -/
def check_resource_availability (sys : SysEnv)
    (env_type user_quota : String) : Option Bool :=
  if sys.docker_available = false then some false
  else
    match dictGet ENVIRONMENT_CONFIGS env_type,
          dictGet RESOURCE_QUOTAS user_quota with
    | some config, some _ =>
        let memCheck : Bool :=
          decide (config.resource_requirements.min_memory_gb ≤
            sys.available_memory_gb)
        if config.resource_requirements.gpu_required then
          match sys.availableGpus with
          | none => some false
          | some avail =>
              let required := (config.resource_requirements.min_gpus).getD 1
              if avail < required then some false
              else some memCheck
        else some memCheck
    | _, _ => none

/-- Errors of _create_environment_core, by branch: invalidType,
quotaExceeded and resourceUnavailable are the 400 returns before any port
work; dockerUnavailable is the 500 return at the docker check;
runtimeError is the catch-all 500 (port exhaustion, volume setup failure,
container run failure). -/
inductive CreateError where
  | invalidType
  | quotaExceeded
  | resourceUnavailable
  | dockerUnavailable
  | runtimeError
deriving DecidableEq, Repr

/-- Success payload of _create_environment_core. -/
structure CreateSuccess where
  container_name : String
  access_url : String
  host_port : Nat
deriving DecidableEq, Repr

/-- Outcome of _create_environment_core; keyError models an uncaught
KeyError on RESOURCE_QUOTAS (unknown quota tier name reaching the lookup
before the try block). -/
inductive CreateOutcome where
  | keyError
  | error (e : CreateError)
  | ok (r : CreateSuccess)
deriving DecidableEq, Repr

/-- Oracle for one _create_environment_core call: the system probe results,
the port-allocation oracle, whether the user-data volume setup
(get_user_data_path's mkdir calls plus resolve) succeeds, whether
docker containers.run succeeds, and the timestamp used for the container
name and the start-time record. -/
structure CreateEnv where
  sys : SysEnv
  pe : PortEnv
  userDataPathOk : Bool
  runOk : Bool
  now : Nat

/-- The port-selection step of _create_environment_core: vscode types
allocate from 8080, types whose name contains jupyter allocate from 8888
(both with the allocator's default max_attempts of 100), and any other type
takes the static host port from its config's ports dict without touching the
reservation set.  The Bool records whether the port went through the
allocator; none models a raised exception (port exhaustion, or an empty
ports dict making list(...)[0] raise IndexError). -/
def create_allocate (s1 : RMState) (pe : PortEnv) (config : EnvConfig)
    (env_type : String) : Option ((RMState × Nat) × Bool) :=
  if env_type = "vscode" then
    (allocate_port s1 pe 8080 100).map (fun r => (r, true))
  else if strContains env_type "jupyter" then
    (allocate_port s1 pe 8888 100).map (fun r => (r, true))
  else
    match config.ports with
    | [] => none
    | (hp, _) :: _ => some ((s1, hp), false)

/-- The _create_environment_core function: validate the environment type,
check the quota (this creates the user's entry), check resource
availability, check docker, select a host port (create_allocate), compute
the access URL, set up the user-data volumes, run the container (releasing
the port on a run failure), and on success track the new container for the
user.  A volume-setup failure is caught by the outer except without
releasing the port, exactly as in the source; the resource-limit strings
computed from the (already validated) quota tier are pure and elided. -/
def create_environment_core (ce : CreateEnv) (s : RMState)
    (env_type user_id user_quota : String) : RMState × CreateOutcome :=
  match dictGet ENVIRONMENT_CONFIGS env_type with
  | none => (s, .error .invalidType)
  | some config =>
      match check_user_quota s user_id user_quota with
      | (s1, none) => (s1, .keyError)
      | (s1, some false) => (s1, .error .quotaExceeded)
      | (s1, some true) =>
          match check_resource_availability ce.sys env_type user_quota with
          | none => (s1, .keyError)
          | some false => (s1, .error .resourceUnavailable)
          | some true =>
              if ce.sys.docker_available = false then
                (s1, .error .dockerUnavailable)
              else
                let container_name :=
                  "ai-lab-" ++ env_type ++ "-" ++ toString ce.now
                match create_allocate s1 ce.pe config env_type with
                | none => (s1, .error .runtimeError)
                | some ((s2, host_port), _) =>
                    let access_url :=
                      if strContains env_type "jupyter" then
                        "http://localhost:" ++ toString host_port ++ "/lab"
                      else
                        "http://localhost:" ++ toString host_port
                    if ce.userDataPathOk = false then
                      (s2, .error .runtimeError)
                    else if ce.runOk = false then
                      (release_port s2 host_port, .error .runtimeError)
                    else
                      (track_environment s2 user_id container_name ce.now,
                       .ok ⟨container_name, access_url, host_port⟩)

/-- Oracle for the lifecycle endpoints: docker availability and the status
of each named container (none models docker.errors.NotFound). -/
structure RtEnv where
  docker_available : Bool
  containers : String → Option CStatus

/-- Outcomes of the lifecycle endpoints: dockerUnavailable is the 500 at the
top, accessDenied the 403 ownership rejection, notFound the 404, badState
the 400 state-mismatch of pause/resume, and acted the success path where the
runtime action is performed. -/
inductive LcOutcome where
  | dockerUnavailable
  | accessDenied
  | notFound
  | badState
  | acted
deriving DecidableEq, Repr

/-- The ownership gate shared by start/stop/pause/resume/delete:
if user_id and not user_owns_environment(...): 403.  A request that omits
user_id (or sends a falsy one, modelled as none) skips the check. -/
def ownershipDenied (s : RMState) (user_id : Option String)
    (env_id : String) : Bool :=
  match user_id with
  | none => false
  | some u => !user_owns_environment s u env_id

/-- The start_environment endpoint: docker check, ownership gate, then
container.start on the named container (modelled as succeeding whenever the
container exists). -/
def start_environment (rt : RtEnv) (env_id : String)
    (user_id : Option String) (s : RMState) : LcOutcome :=
  if rt.docker_available = false then .dockerUnavailable
  else if ownershipDenied s user_id env_id then .accessDenied
  else
    match rt.containers env_id with
    | none => .notFound
    | some _ => .acted

/-- The tracking-update loop of stop_environment and delete_environment:
find the first user (in dict insertion order) whose list contains the
container and untrack it for that user; the loop's membership test
guarantees list.remove succeeds, so the getD branch is never taken on the
states the loop selects. -/
def stopTrackingUpdate (s : RMState) (env_id : String) : RMState :=
  match s.user_environments.find? (fun p => decide (env_id ∈ p.2)) with
  | some (u, _) => (untrack_environment s u env_id).getD s
  | none => s

/-- The stop_environment endpoint: docker check, ownership gate,
container.stop (modelled as succeeding whenever the container exists), then
the tracking-update loop. -/
def stop_environment (rt : RtEnv) (env_id : String)
    (user_id : Option String) (s : RMState) : LcOutcome × RMState :=
  if rt.docker_available = false then (.dockerUnavailable, s)
  else if ownershipDenied s user_id env_id then (.accessDenied, s)
  else
    match rt.containers env_id with
    | none => (.notFound, s)
    | some _ => (.acted, stopTrackingUpdate s env_id)

/-- The restart_environment endpoint: docker check, then container.restart.
The source reads no user identifier and performs no ownership gate; the
user_id parameter is kept to state that the outcome ignores it. -/
def restart_environment (rt : RtEnv) (env_id : String)
    (_user_id : Option String) (_s : RMState) : LcOutcome :=
  if rt.docker_available = false then .dockerUnavailable
  else
    match rt.containers env_id with
    | none => .notFound
    | some _ => .acted

/-- The pause_environment endpoint: docker check, ownership gate, then a
running-state requirement before container.pause. -/
def pause_environment (rt : RtEnv) (env_id : String)
    (user_id : Option String) (s : RMState) : LcOutcome :=
  if rt.docker_available = false then .dockerUnavailable
  else if ownershipDenied s user_id env_id then .accessDenied
  else
    match rt.containers env_id with
    | none => .notFound
    | some st => if st ≠ .running then .badState else .acted

/-- The resume_environment endpoint: docker check, ownership gate, then a
paused-state requirement before container.unpause. -/
def resume_environment (rt : RtEnv) (env_id : String)
    (user_id : Option String) (s : RMState) : LcOutcome :=
  if rt.docker_available = false then .dockerUnavailable
  else if ownershipDenied s user_id env_id then .accessDenied
  else
    match rt.containers env_id with
    | none => .notFound
    | some st => if st ≠ .paused then .badState else .acted

/-- The delete_environment endpoint: docker check, ownership gate,
best-effort stop and forced remove (modelled as succeeding), best-effort
port discovery from the container's port bindings (none when not
discoverable), the tracking-update loop, then the port release guarded by
Python truthiness (a discovered port 0 would be falsy and never released). -/
def delete_environment (rt : RtEnv) (discoveredPort : Option Nat)
    (env_id : String) (user_id : Option String) (s : RMState) :
    LcOutcome × RMState :=
  if rt.docker_available = false then (.dockerUnavailable, s)
  else if ownershipDenied s user_id env_id then (.accessDenied, s)
  else
    match rt.containers env_id with
    | none => (.notFound, s)
    | some _ =>
        let s1 := stopTrackingUpdate s env_id
        let s2 :=
          match discoveredPort with
          | some p => if p ≠ 0 then release_port s1 p else s1
          | none => s1
        (.acted, s2)

/-- Outcomes of the register-user endpoint. -/
inductive RegOutcome where
  | dockerUnavailable
  | missingUser
  | notFound
  | alreadyTracked
  | registered
deriving DecidableEq, Repr

/-- The register_environment_for_user endpoint (admin function): requires a
user_id, requires the container to exist, returns already-tracked when the
requesting user already owns it, and otherwise calls track_environment.  It
never consults get_environment_owner, so it does not notice when a different
user already owns the container. -/
def register_environment_for_user (rt : RtEnv) (env_id : String)
    (user_id : Option String) (now : Nat) (s : RMState) :
    RegOutcome × RMState :=
  if rt.docker_available = false then (.dockerUnavailable, s)
  else
    match user_id with
    | none => (.missingUser, s)
    | some u =>
        match rt.containers env_id with
        | none => (.notFound, s)
        | some _ =>
            if user_owns_environment s u env_id then (.alreadyTracked, s)
            else (.registered, track_environment s u env_id now)

/-- Ownership uniqueness: no container id appears in the environment lists
of two distinct users. -/
def UniqueOwnership (s : RMState) : Prop :=
  ∀ u1 u2 c, user_owns_environment s u1 c = true →
    user_owns_environment s u2 c = true → u1 = u2

/-- The dict keys of the user-environment map are pairwise distinct (always
true of a real Python dict; needed because the embedding uses association
lists). -/
def KeysNodup (s : RMState) : Prop :=
  (s.user_environments.map Prod.fst).Nodup

/-- No user's environment list contains a container id twice (holds in all
states the backend reaches, since tracking is guarded by ownership or
freshness checks). -/
def ListsNodup (s : RMState) : Prop :=
  ∀ p ∈ s.user_environments, p.2.Nodup

/-- Whether the usage loop sees the container in the given status (false
when containers.get raises). -/
def containerSeen (d : DockerEnv) (st : CStatus) (c : String) : Bool :=
  match d.containers c with
  | some info => decide (info.status = st)
  | none => false

/-- Whether the usage loop reaches the stats-summing block for the
container: it is visible, running, and its stats query succeeds. -/
def statsCounted (d : DockerEnv) (c : String) : Bool :=
  match d.containers c with
  | some info => decide (info.status = .running) && info.stats.isSome
  | none => false

/-- The memory contribution (in GB) the usage loop adds for a container
whose stats block is reached. -/
def containerMemGB (d : DockerEnv) (c : String) : ℚ :=
  match d.containers c with
  | some info =>
      match info.stats with
      | some st => (st.memory_usage : ℚ) / (1024 ^ 3)
      | none => 0
  | none => 0

/-- The CPU-core contribution the usage loop adds for a container whose
stats block is reached. -/
def containerCpu (d : DockerEnv) (c : String) : Nat :=
  match d.containers c with
  | some info =>
      match info.stats with
      | some st => st.percpu_len
      | none => 0
  | none => 0

/-- A port is skipped by the allocate_port scan when it is already reserved,
bound by a runtime-visible container, or fails the test bind. -/
def portSkipped (s : RMState) (pe : PortEnv) (q : Nat) : Prop :=
  q ∈ s.allocated_ports ∨ q ∈ pe.dockerPorts ∨ pe.bindOk q = false

/-! Dictionary lemmas. -/

theorem dictGet_dictSet_self {α : Type} (d : List (String × α)) (k : String)
    (v : α) : dictGet (dictSet d k v) k = some v := by
  induction d with
  | nil => simp [dictGet, dictSet]
  | cons p rest ih =>
      obtain ⟨k', v'⟩ := p
      by_cases h : k' = k
      · subst h
        simp [dictGet, dictSet]
      · simp [dictGet, dictSet, h, ih]

theorem dictGet_dictSet_ne {α : Type} (d : List (String × α)) (k k' : String)
    (v : α) (h : k' ≠ k) :
    dictGet (dictSet d k v) k' = dictGet d k' := by
  have h' : ¬ k = k' := fun hh => h hh.symm
  induction d with
  | nil => simp [dictGet, dictSet, h']
  | cons p rest ih =>
      obtain ⟨k'', v''⟩ := p
      by_cases hk : k'' = k
      · subst hk
        simp [dictGet, dictSet, h']
      · simp [dictGet, dictSet, hk, ih]

theorem dictGet_dictDel_self {α : Type} (d : List (String × α)) (k : String) :
    dictGet (dictDel d k) k = none := by
  induction d with
  | nil => rfl
  | cons p rest ih =>
      obtain ⟨k', v'⟩ := p
      by_cases h : k' = k
      · simpa [dictDel, h] using ih
      · simpa [dictDel, dictGet, h] using ih

theorem dictGet_dictDel_ne {α : Type} (d : List (String × α)) (k k' : String)
    (h : k' ≠ k) : dictGet (dictDel d k) k' = dictGet d k' := by
  induction d with
  | nil => rfl
  | cons p rest ih =>
      obtain ⟨k'', v''⟩ := p
      by_cases hk : k'' = k
      · have h2 : ¬ k = k' := fun hh => h hh.symm
        simp only [dictDel, hk, if_true, dictGet, h2, if_false]
        exact ih
      · simp only [dictDel, hk, if_false, dictGet]
        by_cases hk' : k'' = k'
        · simp [hk']
        · simp [hk', ih]

theorem dictGet_mem {α : Type} {d : List (String × α)} {k : String} {v : α}
    (h : dictGet d k = some v) : (k, v) ∈ d := by
  induction d with
  | nil => simp [dictGet] at h
  | cons p rest ih =>
      obtain ⟨k', v'⟩ := p
      by_cases hk : k' = k
      · subst hk
        simp only [dictGet, if_true, Option.some.injEq] at h
        simp [h]
      · simp only [dictGet, hk, if_false] at h
        exact List.mem_cons_of_mem _ (ih h)

theorem dictGet_eq_none_of_not_key {α : Type} {d : List (String × α)}
    {k : String} (h : k ∉ d.map Prod.fst) : dictGet d k = none := by
  induction d with
  | nil => rfl
  | cons p rest ih =>
      obtain ⟨k', v'⟩ := p
      simp only [List.map_cons, List.mem_cons, not_or] at h
      have hk : ¬ k' = k := fun hh => h.1 hh.symm
      simp [dictGet, hk, ih h.2]

/-! Lemmas about ensureUserEntry, tracking and ownership. -/

theorem ensureUserEntry_ports (s : RMState) (u : String) :
    (ensureUserEntry s u).allocated_ports = s.allocated_ports := by
  unfold ensureUserEntry
  cases dictGet s.user_environments u <;> rfl

theorem ensureUserEntry_times (s : RMState) (u : String) :
    (ensureUserEntry s u).environment_start_times =
      s.environment_start_times := by
  unfold ensureUserEntry
  cases dictGet s.user_environments u <;> rfl

theorem dictGet_ensureUserEntry_self (s : RMState) (u : String) :
    dictGet (ensureUserEntry s u).user_environments u =
      some ((dictGet s.user_environments u).getD []) := by
  unfold ensureUserEntry
  cases h : dictGet s.user_environments u with
  | none => simp [dictGet_dictSet_self, h]
  | some envs => simp [h]

theorem dictGet_ensureUserEntry_ne (s : RMState) (u u' : String)
    (h : u' ≠ u) :
    dictGet (ensureUserEntry s u).user_environments u' =
      dictGet s.user_environments u' := by
  unfold ensureUserEntry
  cases hg : dictGet s.user_environments u with
  | none => simp [dictGet_dictSet_ne _ _ _ _ h]
  | some envs => rfl

theorem currentEnvCount_ensureUserEntry (s : RMState) (u u' : String) :
    currentEnvCount (ensureUserEntry s u) u' = currentEnvCount s u' := by
  by_cases h : u' = u
  · subst h
    simp only [currentEnvCount, dictGet_ensureUserEntry_self,
      Option.getD_some]
  · simp [currentEnvCount, dictGet_ensureUserEntry_ne s u u' h]

theorem user_owns_ensureUserEntry (s : RMState) (u u' c : String) :
    user_owns_environment (ensureUserEntry s u) u' c =
      user_owns_environment s u' c := by
  by_cases h : u' = u
  · subst h
    simp only [user_owns_environment, dictGet_ensureUserEntry_self]
    cases dictGet s.user_environments u' <;> simp
  · simp only [user_owns_environment, dictGet_ensureUserEntry_ne s u u' h]

theorem dictGet_track_self (s : RMState) (u c : String) (now : Nat) :
    dictGet (track_environment s u c now).user_environments u =
      some (((dictGet s.user_environments u).getD []) ++ [c]) := by
  unfold track_environment
  simp only [dictGet_dictSet_self, dictGet_ensureUserEntry_self,
    Option.getD_some]

theorem dictGet_track_ne (s : RMState) (u u' c : String) (now : Nat)
    (h : u' ≠ u) :
    dictGet (track_environment s u c now).user_environments u' =
      dictGet s.user_environments u' := by
  unfold track_environment
  simp only [dictGet_dictSet_ne _ _ _ _ h, dictGet_ensureUserEntry_ne s u u' h]

theorem user_owns_track_iff (s : RMState) (u u' c c' : String) (now : Nat) :
    user_owns_environment (track_environment s u c now) u' c' = true ↔
      user_owns_environment s u' c' = true ∨ (u' = u ∧ c' = c) := by
  by_cases h : u' = u
  · subst h
    simp only [user_owns_environment, dictGet_track_self]
    cases hg : dictGet s.user_environments u' with
    | none => simp
    | some envs => simp [List.mem_append]
  · simp only [user_owns_environment, dictGet_track_ne s u u' c now h, h,
      false_and, or_false]

theorem untrack_cases (s : RMState) (u c : String) :
    (dictGet s.user_environments u = none →
      untrack_environment s u c = some { s with
        environment_start_times := dictDel s.environment_start_times c }) ∧
    (∀ envs, dictGet s.user_environments u = some envs → c ∈ envs →
      untrack_environment s u c = some { s with
        user_environments := dictSet s.user_environments u (envs.erase c),
        environment_start_times := dictDel s.environment_start_times c }) ∧
    (∀ envs, dictGet s.user_environments u = some envs → c ∉ envs →
      untrack_environment s u c = none) := by
  refine ⟨fun h => ?_, fun envs h hc => ?_, fun envs h hc => ?_⟩
  · simp [untrack_environment, h]
  · simp [untrack_environment, h, hc]
  · simp [untrack_environment, h, hc]

theorem user_owns_untrack_mono (s s' : RMState) (u u' c c' : String)
    (h : untrack_environment s u c = some s')
    (h' : user_owns_environment s' u' c' = true) :
    user_owns_environment s u' c' = true := by
  unfold untrack_environment at h
  cases hg : dictGet s.user_environments u with
  | none =>
      rw [hg] at h
      simp only [Option.some.injEq] at h
      subst h
      exact h'
  | some envs =>
      rw [hg] at h
      by_cases hc : c ∈ envs
      · simp only [hc, if_true, Option.some.injEq] at h
        subst h
        by_cases hu : u' = u
        · subst hu
          have h2 : c' ∈ envs.erase c := by
            simpa [user_owns_environment, dictGet_dictSet_self] using h'
          have h3 : c' ∈ envs := List.mem_of_mem_erase h2
          simp [user_owns_environment, hg, h3]
        · simpa [user_owns_environment, dictGet_dictSet_ne _ _ _ _ hu]
            using h'
      · simp [hc] at h

/-! Quota lemmas. -/

theorem check_user_quota_iff (s : RMState) (u qt : String) (q : QuotaTier)
    (hq : dictGet RESOURCE_QUOTAS qt = some q) :
    ((check_user_quota s u qt).2 = some false ↔
      q.max_environments ≤ currentEnvCount s u) ∧
    ((check_user_quota s u qt).2 = some true ↔
      currentEnvCount s u < q.max_environments) ∧
    (check_user_quota s u qt).1 = ensureUserEntry s u := by
  unfold check_user_quota
  simp only [hq]
  by_cases hle : q.max_environments ≤ currentEnvCount s u
  · simp [currentEnvCount_ensureUserEntry, hle, Nat.not_lt.mpr hle]
  · simp [currentEnvCount_ensureUserEntry, hle, Nat.not_le.mp hle]

/-! Port allocator lemmas. -/

theorem findPortAux_some_spec (s : RMState) (pe : PortEnv) :
    ∀ fuel start p, findPortAux s pe start fuel = some p →
      start ≤ p ∧ p < start + fuel ∧
      p ∉ s.allocated_ports ∧ p ∉ pe.dockerPorts ∧ pe.bindOk p = true ∧
      ∀ q, start ≤ q → q < p → portSkipped s pe q := by
  intro fuel
  induction fuel with
  | zero =>
      intro start p h
      simp [findPortAux] at h
  | succ n ih =>
      intro start p h
      unfold findPortAux at h
      by_cases h1 : start ∈ s.allocated_ports
      · rw [if_pos h1] at h
        obtain ⟨ha, hb, hc, hd, he, hf⟩ := ih (start + 1) p h
        refine ⟨by omega, by omega, hc, hd, he, fun q hq1 hq2 => ?_⟩
        rcases Nat.eq_or_lt_of_le hq1 with rfl | hlt
        · exact Or.inl h1
        · exact hf q hlt hq2
      · rw [if_neg h1] at h
        by_cases h2 : start ∈ pe.dockerPorts
        · rw [if_pos h2] at h
          obtain ⟨ha, hb, hc, hd, he, hf⟩ := ih (start + 1) p h
          refine ⟨by omega, by omega, hc, hd, he, fun q hq1 hq2 => ?_⟩
          rcases Nat.eq_or_lt_of_le hq1 with rfl | hlt
          · exact Or.inr (Or.inl h2)
          · exact hf q hlt hq2
        · rw [if_neg h2] at h
          by_cases h3 : pe.bindOk start
          · rw [if_pos h3] at h
            obtain rfl : start = p := by simpa using h
            exact ⟨le_refl _, by omega, h1, h2, h3, fun q hq1 hq2 => by omega⟩
          · rw [if_neg h3] at h
            obtain ⟨ha, hb, hc, hd, he, hf⟩ := ih (start + 1) p h
            refine ⟨by omega, by omega, hc, hd, he, fun q hq1 hq2 => ?_⟩
            rcases Nat.eq_or_lt_of_le hq1 with rfl | hlt
            · exact Or.inr (Or.inr (by simpa using h3))
            · exact hf q hlt hq2

theorem findPortAux_none_iff (s : RMState) (pe : PortEnv) :
    ∀ fuel start, findPortAux s pe start fuel = none ↔
      ∀ q, start ≤ q → q < start + fuel → portSkipped s pe q := by
  intro fuel
  induction fuel with
  | zero =>
      intro start
      simp only [findPortAux]
      constructor
      · intro _ q hq1 hq2
        omega
      · intro _
        trivial
  | succ n ih =>
      intro start
      unfold findPortAux
      by_cases h1 : start ∈ s.allocated_ports
      · rw [if_pos h1, ih (start + 1)]
        constructor
        · intro hall q hq1 hq2
          rcases Nat.eq_or_lt_of_le hq1 with rfl | hlt
          · exact Or.inl h1
          · exact hall q hlt (by omega)
        · intro hall q hq1 hq2
          exact hall q (by omega) (by omega)
      · rw [if_neg h1]
        by_cases h2 : start ∈ pe.dockerPorts
        · rw [if_pos h2, ih (start + 1)]
          constructor
          · intro hall q hq1 hq2
            rcases Nat.eq_or_lt_of_le hq1 with rfl | hlt
            · exact Or.inr (Or.inl h2)
            · exact hall q hlt (by omega)
          · intro hall q hq1 hq2
            exact hall q (by omega) (by omega)
        · rw [if_neg h2]
          by_cases h3 : pe.bindOk start
          · rw [if_pos h3]
            constructor
            · intro hcontra
              exact absurd hcontra (by simp)
            · intro hall
              have := hall start (le_refl _) (by omega)
              rcases this with hs | hs | hs
              · exact absurd hs h1
              · exact absurd hs h2
              · rw [h3] at hs
                exact absurd hs (by simp)
          · rw [if_neg h3, ih (start + 1)]
            constructor
            · intro hall q hq1 hq2
              rcases Nat.eq_or_lt_of_le hq1 with rfl | hlt
              · exact Or.inr (Or.inr (by simpa using h3))
              · exact hall q hlt (by omega)
            · intro hall q hq1 hq2
              exact hall q (by omega) (by omega)

theorem allocate_port_some_spec (s : RMState) (pe : PortEnv)
    (sp n : Nat) (s' : RMState) (p : Nat)
    (h : allocate_port s pe sp n = some (s', p)) :
    sp ≤ p ∧ p < sp + n ∧ p ∉ s.allocated_ports ∧ p ∉ pe.dockerPorts ∧
    pe.bindOk p = true ∧ (∀ q, sp ≤ q → q < p → portSkipped s pe q) ∧
    s' = { s with allocated_ports := insert p s.allocated_ports } := by
  unfold allocate_port at h
  cases hf : findPortAux s pe sp n with
  | none =>
      rw [hf] at h
      exact absurd h (by simp)
  | some p' =>
      rw [hf] at h
      simp only [Option.some.injEq, Prod.mk.injEq] at h
      obtain ⟨hs, hp⟩ := h
      rw [hp] at hf
      obtain ⟨ha, hb, hc, hd, he, hg⟩ := findPortAux_some_spec s pe n sp p hf
      rw [hp] at hs
      exact ⟨ha, hb, hc, hd, he, hg, hs.symm⟩

theorem allocate_port_none_iff (s : RMState) (pe : PortEnv) (sp n : Nat) :
    allocate_port s pe sp n = none ↔
      ∀ q, sp ≤ q → q < sp + n → portSkipped s pe q := by
  unfold allocate_port
  rw [← findPortAux_none_iff s pe n sp]
  cases findPortAux s pe sp n <;> simp

theorem mem_allocate_runs (reqs : List (PortEnv × Nat × Nat)) :
    ∀ s q, q ∈ (allocate_runs s reqs).2 → q ∉ s.allocated_ports := by
  induction reqs with
  | nil =>
      intro s q hq
      simp [allocate_runs] at hq
  | cons r rest ih =>
      intro s q hq
      obtain ⟨pe, sp, ma⟩ := r
      unfold allocate_runs at hq
      cases hal : allocate_port s pe sp ma with
      | none =>
          rw [hal] at hq
          exact ih s q hq
      | some r' =>
          obtain ⟨s', p⟩ := r'
          rw [hal] at hq
          simp only [List.mem_cons] at hq
          rcases hq with rfl | hq
          · exact (allocate_port_some_spec s pe sp ma s' q hal).2.2.1
          · have h2 := ih s' q hq
            have h3 := (allocate_port_some_spec s pe sp ma s' p hal).2.2.2.2.2.2
            rw [h3] at h2
            intro hcontra
            exact h2 (Finset.mem_insert_of_mem hcontra)

theorem allocate_runs_pairwise (reqs : List (PortEnv × Nat × Nat)) :
    ∀ s, ((allocate_runs s reqs).2).Pairwise (fun a b => a ≠ b) := by
  induction reqs with
  | nil =>
      intro s
      simp [allocate_runs]
  | cons r rest ih =>
      intro s
      obtain ⟨pe, sp, ma⟩ := r
      unfold allocate_runs
      cases hal : allocate_port s pe sp ma with
      | none => exact ih s
      | some r' =>
          obtain ⟨s', p⟩ := r'
          refine List.Pairwise.cons ?_ (ih s')
          intro q hq
          have h2 := mem_allocate_runs rest s' q hq
          have h3 := (allocate_port_some_spec s pe sp ma s' p hal).2.2.2.2.2.2
          rw [h3] at h2
          intro hcontra
          exact h2 (hcontra ▸ Finset.mem_insert_self p s.allocated_ports)

/-! Ownership lemmas: locating the unique owner in dict order. -/

theorem find?_owner (c u : String) (envs : List String) :
    ∀ l : List (String × List String),
      (l.map Prod.fst).Nodup →
      (∀ u1 u2 e1 e2, dictGet l u1 = some e1 → c ∈ e1 →
        dictGet l u2 = some e2 → c ∈ e2 → u1 = u2) →
      dictGet l u = some envs → c ∈ envs →
      l.find? (fun p => decide (c ∈ p.2)) = some (u, envs) := by
  intro l
  induction l with
  | nil =>
      intro _ _ hget _
      simp [dictGet] at hget
  | cons p rest ih =>
      obtain ⟨k, es⟩ := p
      intro hnd huniq hget hc
      simp only [List.map_cons, List.nodup_cons] at hnd
      by_cases hmem : c ∈ es
      · have hks : dictGet ((k, es) :: rest) k = some es := by
          simp [dictGet]
        have hku : k = u := huniq k u es envs hks hmem hget hc
        subst hku
        rw [hks] at hget
        simp only [Option.some.injEq] at hget
        subst hget
        simp [List.find?, hmem]
      · have hku : ¬ k = u := by
          intro hh
          subst hh
          simp only [dictGet, if_true] at hget
          simp only [Option.some.injEq] at hget
          subst hget
          exact hmem hc
        have hget' : dictGet rest u = some envs := by
          simpa only [dictGet, hku, if_false] using hget
        have huniq' : ∀ u1 u2 e1 e2, dictGet rest u1 = some e1 → c ∈ e1 →
            dictGet rest u2 = some e2 → c ∈ e2 → u1 = u2 := by
          intro u1 u2 e1 e2 hg1 hc1 hg2 hc2
          have hne1 : ¬ k = u1 := by
            intro hh
            subst hh
            exact hnd.1 (List.mem_map_of_mem Prod.fst (dictGet_mem hg1))
          have hne2 : ¬ k = u2 := by
            intro hh
            subst hh
            exact hnd.1 (List.mem_map_of_mem Prod.fst (dictGet_mem hg2))
          refine huniq u1 u2 e1 e2 ?_ hc1 ?_ hc2
          · simpa only [dictGet, hne1, if_false] using hg1
          · simpa only [dictGet, hne2, if_false] using hg2
        have := ih hnd.2 huniq' hget' hc
        simpa [List.find?, hmem] using this

theorem uniqueOwnership_quad (s : RMState) (huniq : UniqueOwnership s)
    (c : String) :
    ∀ u1 u2 e1 e2, dictGet s.user_environments u1 = some e1 → c ∈ e1 →
      dictGet s.user_environments u2 = some e2 → c ∈ e2 → u1 = u2 := by
  intro u1 u2 e1 e2 hg1 hc1 hg2 hc2
  refine huniq u1 u2 c ?_ ?_
  · simp [user_owns_environment, hg1, hc1]
  · simp [user_owns_environment, hg2, hc2]

theorem get_environment_owner_eq (s : RMState) (u c : String)
    (hnd : KeysNodup s) (huniq : UniqueOwnership s)
    (ho : user_owns_environment s u c = true) :
    get_environment_owner s c = some u := by
  unfold user_owns_environment at ho
  cases hget : dictGet s.user_environments u with
  | none =>
      rw [hget] at ho
      exact absurd ho (by simp)
  | some envs =>
      rw [hget] at ho
      simp only [decide_eq_true_eq] at ho
      unfold get_environment_owner
      rw [find?_owner c u envs s.user_environments hnd
        (uniqueOwnership_quad s huniq c) hget ho]
      rfl

theorem stopTrackingUpdate_eq (s : RMState) (u c : String)
    (envs : List String) (hnd : KeysNodup s) (huniq : UniqueOwnership s)
    (hget : dictGet s.user_environments u = some envs) (hc : c ∈ envs) :
    stopTrackingUpdate s c = { s with
      user_environments := dictSet s.user_environments u (envs.erase c),
      environment_start_times := dictDel s.environment_start_times c } := by
  unfold stopTrackingUpdate
  rw [find?_owner c u envs s.user_environments hnd
    (uniqueOwnership_quad s huniq c) hget hc]
  simp only [(untrack_cases s u c).2.1 envs hget hc, Option.getD_some]

theorem stopTrackingUpdate_no_owner (s : RMState) (c : String)
    (h : s.user_environments.find? (fun p => decide (c ∈ p.2)) = none) :
    stopTrackingUpdate s c = s := by
  unfold stopTrackingUpdate
  rw [h]

/-! Preservation of the uniqueness invariant. -/

theorem uniqueOwnership_track (s : RMState) (u c : String) (now : Nat)
    (huniq : UniqueOwnership s)
    (hfresh : ∀ u', user_owns_environment s u' c = false) :
    UniqueOwnership (track_environment s u c now) := by
  intro u1 u2 c' h1 h2
  rw [user_owns_track_iff] at h1 h2
  rcases h1 with h1 | ⟨rfl, rfl⟩
  · rcases h2 with h2 | ⟨rfl, rfl⟩
    · exact huniq u1 u2 c' h1 h2
    · rw [hfresh u1] at h1
      exact absurd h1 (by simp)
  · rcases h2 with h2 | ⟨rfl, _⟩
    · rw [hfresh u2] at h2
      exact absurd h2 (by simp)
    · rfl

theorem uniqueOwnership_untrack (s s' : RMState) (u c : String)
    (h : untrack_environment s u c = some s')
    (huniq : UniqueOwnership s) : UniqueOwnership s' := by
  intro u1 u2 c' h1 h2
  exact huniq u1 u2 c' (user_owns_untrack_mono s s' u u1 c c' h h1)
    (user_owns_untrack_mono s s' u u2 c c' h h2)

theorem register_already_owned (rt : RtEnv) (e u : String) (now : Nat)
    (s : RMState) (ho : user_owns_environment s u e = true) :
    (register_environment_for_user rt e (some u) now s).2 = s := by
  unfold register_environment_for_user
  by_cases hd : rt.docker_available = false
  · simp [hd]
  · cases hc : rt.containers e <;> simp [hd, hc, ho]

theorem uniqueOwnership_register (rt : RtEnv) (e u : String) (now : Nat)
    (s : RMState) (huniq : UniqueOwnership s)
    (hfresh : ∀ u', user_owns_environment s u' e = false) :
    UniqueOwnership (register_environment_for_user rt e (some u) now s).2 := by
  unfold register_environment_for_user
  by_cases hd : rt.docker_available = false
  · simpa [hd] using huniq
  · cases hc : rt.containers e with
    | none => simpa [hd, hc] using huniq
    | some st =>
        simp only [hd, if_false, hc, hfresh u, Bool.false_eq_true]
        simpa using uniqueOwnership_track s u e now huniq hfresh

/-! Usage aggregation lemmas. -/

theorem usage_foldl_spec (d : DockerEnv) :
    ∀ (l : List String) (acc : UsageAcc),
      (l.foldl (usageStep d) acc).running_count =
        acc.running_count + (l.filter (containerSeen d .running)).length ∧
      (l.foldl (usageStep d) acc).paused_count =
        acc.paused_count + (l.filter (containerSeen d .paused)).length ∧
      (l.foldl (usageStep d) acc).total_cpu =
        acc.total_cpu +
          ((l.filter (statsCounted d)).map (containerCpu d)).sum ∧
      (l.foldl (usageStep d) acc).total_memory =
        acc.total_memory +
          ((l.filter (statsCounted d)).map (containerMemGB d)).sum ∧
      (l.foldl (usageStep d) acc).total_gpus =
        acc.total_gpus +
          (l.filter (statsCounted d)).length * d.busyGpus.getD 0 := by
  intro l
  induction l with
  | nil =>
      intro acc
      simp
  | cons c t ih =>
      intro acc
      simp only [List.foldl_cons]
      obtain ⟨ihr, ihp, ihc, ihm, ihg⟩ := ih (usageStep d acc c)
      cases hct : d.containers c with
      | none =>
          have hstep : usageStep d acc c = acc := by
            simp [usageStep, hct]
          have e1 : containerSeen d .running c = false := by
            simp [containerSeen, hct]
          have e2 : containerSeen d .paused c = false := by
            simp [containerSeen, hct]
          have e3 : statsCounted d c = false := by
            simp [statsCounted, hct]
          rw [hstep] at ihr ihp ihc ihm ihg ⊢
          simp [List.filter_cons, e1, e2, e3, ihr, ihp, ihc, ihm, ihg]
      | some info =>
          cases hst : info.status with
          | running =>
              have e1 : containerSeen d .running c = true := by
                simp [containerSeen, hct, hst]
              have e2 : containerSeen d .paused c = false := by
                simp [containerSeen, hct, hst]
              cases hstats : info.stats with
              | none =>
                  have hstep : usageStep d acc c =
                      { acc with running_count := acc.running_count + 1 } := by
                    simp [usageStep, hct, hst, hstats]
                  have e3 : statsCounted d c = false := by
                    simp [statsCounted, hct, hst, hstats]
                  rw [hstep] at ihr ihp ihc ihm ihg ⊢
                  refine ⟨?_, ?_, ?_, ?_, ?_⟩ <;>
                    simp [List.filter_cons, e1, e2, e3, ihr, ihp, ihc, ihm,
                      ihg] <;> omega
              | some st =>
                  have e3 : statsCounted d c = true := by
                    simp [statsCounted, hct, hst, hstats]
                  have e4 : containerMemGB d c =
                      (st.memory_usage : ℚ) / (1024 ^ 3) := by
                    simp [containerMemGB, hct, hstats]
                  have e5 : containerCpu d c = st.percpu_len := by
                    simp [containerCpu, hct, hstats]
                  cases hbg : d.busyGpus with
                  | none =>
                      have hstep : usageStep d acc c =
                          { acc with
                            running_count := acc.running_count + 1,
                            total_memory := acc.total_memory +
                              (st.memory_usage : ℚ) / (1024 ^ 3),
                            total_cpu := acc.total_cpu + st.percpu_len } := by
                        simp [usageStep, hct, hst, hstats, hbg]
                      rw [hstep] at ihr ihp ihc ihm ihg ⊢
                      refine ⟨?_, ?_, ?_, ?_, ?_⟩
                      · simp [List.filter_cons, e1, ihr]
                        omega
                      · simp [List.filter_cons, e2, ihp]
                      · simp [List.filter_cons, e3, e5, ihc]
                        omega
                      · simp [List.filter_cons, e3, e4, ihm]
                        ring
                      · simp [List.filter_cons, e3, ihg, hbg]
                  | some g =>
                      have hstep : usageStep d acc c =
                          { acc with
                            running_count := acc.running_count + 1,
                            total_memory := acc.total_memory +
                              (st.memory_usage : ℚ) / (1024 ^ 3),
                            total_cpu := acc.total_cpu + st.percpu_len,
                            total_gpus := acc.total_gpus + g } := by
                        simp [usageStep, hct, hst, hstats, hbg]
                      rw [hstep] at ihr ihp ihc ihm ihg ⊢
                      refine ⟨?_, ?_, ?_, ?_, ?_⟩
                      · simp [List.filter_cons, e1, ihr]
                        omega
                      · simp [List.filter_cons, e2, ihp]
                      · simp [List.filter_cons, e3, e5, ihc]
                        omega
                      · simp [List.filter_cons, e3, e4, ihm]
                        ring
                      · simp [List.filter_cons, e3, ihg, hbg]
                        ring
          | paused =>
              have hstep : usageStep d acc c =
                  { acc with paused_count := acc.paused_count + 1 } := by
                simp [usageStep, hct, hst]
              have e1 : containerSeen d .running c = false := by
                simp [containerSeen, hct, hst]
              have e2 : containerSeen d .paused c = true := by
                simp [containerSeen, hct, hst]
              have e3 : statsCounted d c = false := by
                simp [statsCounted, hct, hst]
              rw [hstep] at ihr ihp ihc ihm ihg ⊢
              refine ⟨?_, ?_, ?_, ?_, ?_⟩ <;>
                simp [List.filter_cons, e1, e2, e3, ihr, ihp, ihc, ihm, ihg] <;>
                omega
          | other =>
              have hstep : usageStep d acc c = acc := by
                simp [usageStep, hct, hst]
              have e1 : containerSeen d .running c = false := by
                simp [containerSeen, hct, hst]
              have e2 : containerSeen d .paused c = false := by
                simp [containerSeen, hct, hst]
              have e3 : statsCounted d c = false := by
                simp [statsCounted, hct, hst]
              rw [hstep] at ihr ihp ihc ihm ihg ⊢
              simp [List.filter_cons, e1, e2, e3, ihr, ihp, ihc, ihm, ihg]

/-! Create-path helper lemmas. -/

theorem check_user_quota_fst (s : RMState) (u qt : String) :
    (check_user_quota s u qt).1 = ensureUserEntry s u := by
  unfold check_user_quota
  cases dictGet RESOURCE_QUOTAS qt with
  | none => rfl
  | some q =>
      dsimp only
      split <;> rfl

theorem create_allocate_ports (s1 : RMState) (pe : PortEnv)
    (config : EnvConfig) (e : String) (s2 : RMState) (hp : Nat) (flag : Bool)
    (htype : e = "vscode" ∨ strContains e "jupyter" = true)
    (h : create_allocate s1 pe config e = some ((s2, hp), flag)) :
    hp ∉ s1.allocated_ports ∧
    s2.allocated_ports = insert hp s1.allocated_ports := by
  unfold create_allocate at h
  by_cases hv : e = "vscode"
  · rw [if_pos hv] at h
    cases hal : allocate_port s1 pe 8080 100 with
    | none =>
        rw [hal] at h
        exact absurd h (by simp)
    | some r =>
        obtain ⟨s2', p'⟩ := r
        rw [hal] at h
        simp only [Option.map_some', Option.some.injEq, Prod.mk.injEq] at h
        obtain ⟨⟨hs2, hhp⟩, _⟩ := h
        rw [← hs2, ← hhp]
        have := allocate_port_some_spec s1 pe 8080 100 s2' p' hal
        refine ⟨this.2.2.1, ?_⟩
        rw [this.2.2.2.2.2.2]
  · rw [if_neg hv] at h
    have hj : strContains e "jupyter" = true := by
      rcases htype with h' | h'
      · exact absurd h' hv
      · exact h'
    rw [if_pos hj] at h
    cases hal : allocate_port s1 pe 8888 100 with
    | none =>
        rw [hal] at h
        exact absurd h (by simp)
    | some r =>
        obtain ⟨s2', p'⟩ := r
        rw [hal] at h
        simp only [Option.map_some', Option.some.injEq, Prod.mk.injEq] at h
        obtain ⟨⟨hs2, hhp⟩, _⟩ := h
        rw [← hs2, ← hhp]
        have := allocate_port_some_spec s1 pe 8888 100 s2' p' hal
        refine ⟨this.2.2.1, ?_⟩
        rw [this.2.2.2.2.2.2]

theorem create_core_benign (ce : CreateEnv) (s : RMState) (e u qt : String) :
    ((create_environment_core ce s e u qt).2 =
      CreateOutcome.error CreateError.runtimeError) ∨
    (∃ r, (create_environment_core ce s e u qt).2 = CreateOutcome.ok r) ∨
    ((create_environment_core ce s e u qt).1.allocated_ports =
        s.allocated_ports ∧
      ∀ u' c, user_owns_environment (create_environment_core ce s e u qt).1
          u' c = user_owns_environment s u' c) := by
  rcases hcq : check_user_quota s u qt with ⟨s1, qr⟩
  have hs1 : s1 = ensureUserEntry s u := by
    have h := check_user_quota_fst s u qt
    rw [hcq] at h
    exact h
  have hps : s1.allocated_ports = s.allocated_ports := by
    rw [hs1]
    exact ensureUserEntry_ports s u
  have hos : ∀ u' c, user_owns_environment s1 u' c =
      user_owns_environment s u' c := by
    intro u' c
    rw [hs1]
    exact user_owns_ensureUserEntry s u u' c
  unfold create_environment_core
  cases hcfg : dictGet ENVIRONMENT_CONFIGS e with
  | none => exact Or.inr (Or.inr ⟨rfl, fun u' c => rfl⟩)
  | some config =>
      rw [hcq]
      cases qr with
      | none => exact Or.inr (Or.inr ⟨hps, hos⟩)
      | some b =>
          cases b with
          | false => exact Or.inr (Or.inr ⟨hps, hos⟩)
          | true =>
              cases hra : check_resource_availability ce.sys e qt with
              | none => exact Or.inr (Or.inr ⟨hps, hos⟩)
              | some rb =>
                  cases rb with
                  | false => exact Or.inr (Or.inr ⟨hps, hos⟩)
                  | true =>
                      dsimp only
                      by_cases hdock : ce.sys.docker_available = false
                      · rw [if_pos hdock]
                        exact Or.inr (Or.inr ⟨hps, hos⟩)
                      · rw [if_neg hdock]
                        cases hal : create_allocate s1 ce.pe config e with
                        | none => exact Or.inl rfl
                        | some pr =>
                            obtain ⟨⟨s2, hp⟩, flag⟩ := pr
                            dsimp only
                            by_cases hvol : ce.userDataPathOk = false
                            · rw [if_pos hvol]
                              exact Or.inl rfl
                            · rw [if_neg hvol]
                              by_cases hrun : ce.runOk = false
                              · rw [if_pos hrun]
                                exact Or.inl rfl
                              · rw [if_neg hrun]
                                exact Or.inr (Or.inl ⟨_, rfl⟩)

theorem create_core_run_failure (ce : CreateEnv) (s : RMState)
    (e u qt : String) (hvol : ce.userDataPathOk = true)
    (hrun : ce.runOk = false)
    (htype : e = "vscode" ∨ strContains e "jupyter" = true) :
    (create_environment_core ce s e u qt).1.allocated_ports =
      s.allocated_ports := by
  rcases hcq : check_user_quota s u qt with ⟨s1, qr⟩
  have hs1 : s1 = ensureUserEntry s u := by
    have h := check_user_quota_fst s u qt
    rw [hcq] at h
    exact h
  have hps : s1.allocated_ports = s.allocated_ports := by
    rw [hs1]
    exact ensureUserEntry_ports s u
  unfold create_environment_core
  cases hcfg : dictGet ENVIRONMENT_CONFIGS e with
  | none => rfl
  | some config =>
      rw [hcq]
      cases qr with
      | none => exact hps
      | some b =>
          cases b with
          | false => exact hps
          | true =>
              cases hra : check_resource_availability ce.sys e qt with
              | none => exact hps
              | some rb =>
                  cases rb with
                  | false => exact hps
                  | true =>
                      dsimp only
                      by_cases hdock : ce.sys.docker_available = false
                      · rw [if_pos hdock]
                        exact hps
                      · rw [if_neg hdock]
                        cases hal : create_allocate s1 ce.pe config e with
                        | none => exact hps
                        | some pr =>
                            obtain ⟨⟨s2, hp⟩, flag⟩ := pr
                            dsimp only
                            have hvol' : ¬ ce.userDataPathOk = false := by
                              rw [hvol]
                              simp
                            rw [if_neg hvol', if_pos hrun]
                            have hap := create_allocate_ports s1 ce.pe config e
                              s2 hp flag htype hal
                            show (release_port s2 hp).allocated_ports =
                              s.allocated_ports
                            unfold release_port
                            rw [hap.2, Finset.erase_insert hap.1, hps]

/-! Claim theorems. -/

/-- C1: for every user and quota tier, check_user_quota rejects exactly when
the user's current tracked environment count is at least the tier's
max_environments (so in particular at counts 0, max-1, max, max+1), and
passes otherwise. -/
theorem quota_check_boundary (s : RMState) (u qt : String) (q : QuotaTier)
    (hq : dictGet RESOURCE_QUOTAS qt = some q) :
    ((check_user_quota s u qt).2 = some false ↔
      q.max_environments ≤ currentEnvCount s u) ∧
    ((check_user_quota s u qt).2 = some true ↔
      currentEnvCount s u < q.max_environments) :=
  ⟨(check_user_quota_iff s u qt q hq).1, (check_user_quota_iff s u qt q hq).2.1⟩

/-- Witness for quota_check_boundary: a user tracking exactly
max_environments = 2 containers is rejected under the default tier. -/
theorem quota_check_boundary_witness :
    dictGet RESOURCE_QUOTAS "default" = some ⟨1, 8, 2, 50, 2, 24, 1⟩ ∧
    (check_user_quota
      (track_environment (track_environment RMState.init "alice" "c1" 0)
        "alice" "c2" 1) "alice" "default").2 = some false :=
  ⟨by decide,
   (quota_check_boundary
      (track_environment (track_environment RMState.init "alice" "c1" 0)
        "alice" "c2" 1) "alice" "default" ⟨1, 8, 2, 50, 2, 24, 1⟩
      (by decide)).1.mpr (by decide)⟩

/-- C2 counterexample: a vscode create whose user-data volume setup fails
after the port was allocated returns the error while 8080 is still in the
reservation set, so a post-allocation failure does not always release the
port. -/
theorem create_atomicity_counterexample :
    (create_environment_core
        ⟨⟨true, some 4, 64⟩, ⟨∅, fun _ => true⟩, false, true, 42⟩
        RMState.init "vscode" "alice" "default").2 =
      CreateOutcome.error CreateError.runtimeError ∧
    8080 ∈ (create_environment_core
        ⟨⟨true, some 4, 64⟩, ⟨∅, fun _ => true⟩, false, true, 42⟩
        RMState.init "vscode" "alice" "default").1.allocated_ports :=
  ⟨rfl, by decide⟩

/-- C2 amended: create failures other than the catch-all runtime error (and
other than success) leave the reservation set and all ownership records
unchanged; and when the container run itself fails after a port was
allocated for a vscode/jupyter type (the volume setup having succeeded), the
reservation set is restored before the error is returned.  A volume-setup
failure between allocation and the run, by contrast, leaks the port (see the
counterexample). -/
theorem create_atomicity_amended :
    (∀ ce s e u qt,
      (create_environment_core ce s e u qt).2 ≠
        CreateOutcome.error CreateError.runtimeError →
      (∀ r, (create_environment_core ce s e u qt).2 ≠ CreateOutcome.ok r) →
      (create_environment_core ce s e u qt).1.allocated_ports =
        s.allocated_ports ∧
      ∀ u' c, user_owns_environment (create_environment_core ce s e u qt).1
          u' c = user_owns_environment s u' c) ∧
    (∀ ce s e u qt, ce.userDataPathOk = true → ce.runOk = false →
      (e = "vscode" ∨ strContains e "jupyter" = true) →
      (create_environment_core ce s e u qt).1.allocated_ports =
        s.allocated_ports) := by
  constructor
  · intro ce s e u qt h1 h2
    rcases create_core_benign ce s e u qt with h | ⟨r, h⟩ | h
    · exact absurd h h1
    · exact absurd h (h2 r)
    · exact h
  · intro ce s e u qt hvol hrun htype
    exact create_core_run_failure ce s e u qt hvol hrun htype

/-- Witness for create_atomicity_amended: a multi-gpu create with no free
GPUs fails with ResourceUnavailable and leaves the reservation set
unchanged. -/
theorem create_atomicity_amended_witness :
    (create_environment_core
        ⟨⟨true, some 0, 64⟩, ⟨∅, fun _ => true⟩, true, true, 42⟩
        RMState.init "multi-gpu" "alice" "default").2 =
      CreateOutcome.error CreateError.resourceUnavailable ∧
    (create_environment_core
        ⟨⟨true, some 0, 64⟩, ⟨∅, fun _ => true⟩, true, true, 42⟩
        RMState.init "multi-gpu" "alice" "default").1.allocated_ports =
      RMState.init.allocated_ports :=
  ⟨rfl,
   (create_atomicity_amended.1
      ⟨⟨true, some 0, 64⟩, ⟨∅, fun _ => true⟩, true, true, 42⟩
      RMState.init "multi-gpu" "alice" "default" (by decide)
      (fun r h => CreateOutcome.noConfusion
        (show CreateOutcome.error CreateError.resourceUnavailable =
          CreateOutcome.ok r from h))).1⟩

/-- C3: the allocator scans its range in ascending order, returns the first
port that is neither reserved, nor docker-bound, nor bind-failing (adding it
to the reservation set), fails exactly when every candidate is skipped, and
ports from successive calls with no intervening releases are pairwise
distinct. -/
theorem allocate_port_scan_spec :
    (∀ s pe sp n s' p, allocate_port s pe sp n = some (s', p) →
      sp ≤ p ∧ p < sp + n ∧ p ∉ s.allocated_ports ∧ p ∉ pe.dockerPorts ∧
      pe.bindOk p = true ∧ (∀ q, sp ≤ q → q < p → portSkipped s pe q) ∧
      s'.allocated_ports = insert p s.allocated_ports) ∧
    (∀ s pe sp n, allocate_port s pe sp n = none ↔
      ∀ q, sp ≤ q → q < sp + n → portSkipped s pe q) ∧
    (∀ s reqs, ((allocate_runs s reqs).2).Pairwise (fun a b => a ≠ b)) := by
  refine ⟨?_, ?_, ?_⟩
  · intro s pe sp n s' p h
    have hh := allocate_port_some_spec s pe sp n s' p h
    exact ⟨hh.1, hh.2.1, hh.2.2.1, hh.2.2.2.1, hh.2.2.2.2.1,
      hh.2.2.2.2.2.1, by rw [hh.2.2.2.2.2.2]⟩
  · exact allocate_port_none_iff
  · intro s reqs
    exact allocate_runs_pairwise reqs s

/-- Witness for allocate_port_scan_spec: one concrete allocation reserves
the returned port. -/
theorem allocate_port_scan_spec_witness :
    allocate_port ⟨[], [], ∅⟩ ⟨∅, fun _ => true⟩ 9000 1 =
      some (⟨[], [], {9000}⟩, 9000) ∧
    (⟨[], [], {9000}⟩ : RMState).allocated_ports =
      insert 9000 (⟨[], [], ∅⟩ : RMState).allocated_ports :=
  ⟨by decide,
   (allocate_port_scan_spec.1 ⟨[], [], ∅⟩ ⟨∅, fun _ => true⟩ 9000 1
      ⟨[], [], {9000}⟩ 9000 (by decide)).2.2.2.2.2.2⟩

/-- C4 counterexample: registering an environment already owned by a
different user via the register-user endpoint creates a second ownership
record for the same container, breaking ownership uniqueness in a reachable
state. -/
theorem ownership_unique_counterexample :
    user_owns_environment
        (register_environment_for_user ⟨true, fun _ => some CStatus.running⟩
          "c1" (some "bob") 1
          (track_environment RMState.init "alice" "c1" 0)).2
        "alice" "c1" = true ∧
    user_owns_environment
        (register_environment_for_user ⟨true, fun _ => some CStatus.running⟩
          "c1" (some "bob") 1
          (track_environment RMState.init "alice" "c1" 0)).2
        "bob" "c1" = true ∧
    ("alice" : String) ≠ "bob" :=
  ⟨by decide, by decide, by decide⟩

/-- C4 amended: ownership uniqueness is preserved by tracking a fresh
container, by untracking, and by registering when the requester already owns
the container (a no-op) or when nobody owns it; under uniqueness and
distinct dict keys, get_environment_owner returns the unique owner.  Manual
registration of a container owned by a *different* user is the one operation
that breaks the invariant (see the counterexample). -/
theorem ownership_unique_amended :
    (∀ s u c now, UniqueOwnership s →
      (∀ u', user_owns_environment s u' c = false) →
      UniqueOwnership (track_environment s u c now)) ∧
    (∀ s s' u c, untrack_environment s u c = some s' → UniqueOwnership s →
      UniqueOwnership s') ∧
    (∀ rt e u now s, user_owns_environment s u e = true →
      (register_environment_for_user rt e (some u) now s).2 = s) ∧
    (∀ rt e u now s, UniqueOwnership s →
      (∀ u', user_owns_environment s u' e = false) →
      UniqueOwnership (register_environment_for_user rt e (some u) now s).2) ∧
    (∀ s u c, KeysNodup s → UniqueOwnership s →
      user_owns_environment s u c = true →
      get_environment_owner s c = some u) :=
  ⟨uniqueOwnership_track, uniqueOwnership_untrack, register_already_owned,
   uniqueOwnership_register, get_environment_owner_eq⟩

/-- Witness for ownership_unique_amended: re-registering a container for its
existing owner leaves the tracker unchanged. -/
theorem ownership_unique_amended_witness :
    user_owns_environment (track_environment RMState.init "alice" "c1" 0)
      "alice" "c1" = true ∧
    (register_environment_for_user ⟨true, fun _ => some CStatus.running⟩
        "c1" (some "alice") 5
        (track_environment RMState.init "alice" "c1" 0)).2 =
      track_environment RMState.init "alice" "c1" 0 :=
  ⟨by decide,
   ownership_unique_amended.2.2.1 ⟨true, fun _ => some CStatus.running⟩
     "c1" "alice" 5 (track_environment RMState.init "alice" "c1" 0)
     (by decide)⟩

/-- C5 counterexample: restart performs no ownership check at all — a user
who owns nothing restarts another user's environment, where the claim
demands AccessDenied. -/
theorem lifecycle_ownership_counterexample :
    restart_environment ⟨true, fun _ => some CStatus.running⟩ "c1"
        (some "mallory") (track_environment RMState.init "alice" "c1" 0) =
      LcOutcome.acted ∧
    user_owns_environment (track_environment RMState.init "alice" "c1" 0)
      "mallory" "c1" = false :=
  ⟨by decide, by decide⟩

/-- C5 amended: start, stop, pause and resume reject a caller-supplied
non-owner with AccessDenied before acting on the runtime, but restart reads
no user identifier and performs no ownership check (its outcome is
independent of both the supplied user and the tracker state). -/
theorem lifecycle_ownership_amended :
    (∀ rt e u s, rt.docker_available = true →
      user_owns_environment s u e = false →
      start_environment rt e (some u) s = LcOutcome.accessDenied ∧
      stop_environment rt e (some u) s = (LcOutcome.accessDenied, s) ∧
      pause_environment rt e (some u) s = LcOutcome.accessDenied ∧
      resume_environment rt e (some u) s = LcOutcome.accessDenied) ∧
    (∀ rt e uid uid' s s',
      restart_environment rt e uid s = restart_environment rt e uid' s') := by
  constructor
  · intro rt e u s hd ho
    have hden : ownershipDenied s (some u) e = true := by
      simp [ownershipDenied, ho]
    have hd' : ¬ rt.docker_available = false := by
      simp [hd]
    refine ⟨?_, ?_, ?_, ?_⟩ <;>
      simp [start_environment, stop_environment, pause_environment,
        resume_environment, hd', hden]
  · intro rt e uid uid' s s'
    rfl

/-- Witness for lifecycle_ownership_amended: a non-owner supplying their
user id is denied on start. -/
theorem lifecycle_ownership_amended_witness :
    (⟨true, fun _ => some CStatus.running⟩ : RtEnv).docker_available = true ∧
    user_owns_environment RMState.init "mallory" "c1" = false ∧
    start_environment ⟨true, fun _ => some CStatus.running⟩ "c1"
      (some "mallory") RMState.init = LcOutcome.accessDenied :=
  ⟨rfl, by decide,
   (lifecycle_ownership_amended.1 ⟨true, fun _ => some CStatus.running⟩ "c1"
      "mallory" RMState.init rfl (by decide)).1⟩

/-- C6 counterexample: untracking a container the user does not have, while
the user does have a tracking entry, hits list.remove's ValueError (modelled
as none) instead of failing silently. -/
theorem untrack_counterexample :
    untrack_environment (track_environment RMState.init "alice" "c1" 0)
      "alice" "c2" = none := by
  decide

/-- C6 amended: untrack removes exactly the matching record and the start
time; when the user has no tracking entry at all it is a silent no-op on the
environment lists; after a successful untrack of a container tracked at most
once, owns returns false; but when the user has an entry that does not
contain the container, list.remove raises ValueError instead of failing
silently (see the counterexample). -/
theorem untrack_amended :
    (∀ s u c, dictGet s.user_environments u = none →
      untrack_environment s u c = some { s with
        environment_start_times := dictDel s.environment_start_times c } ∧
      ∀ s', untrack_environment s u c = some s' →
        user_owns_environment s' u c = false) ∧
    (∀ s u c envs, dictGet s.user_environments u = some envs → c ∈ envs →
      ∃ s', untrack_environment s u c = some s' ∧
        dictGet s'.user_environments u = some (envs.erase c) ∧
        (∀ u', u' ≠ u → dictGet s'.user_environments u' =
          dictGet s.user_environments u') ∧
        dictGet s'.environment_start_times c = none ∧
        (envs.count c ≤ 1 → user_owns_environment s' u c = false)) ∧
    (∀ s u c envs, dictGet s.user_environments u = some envs → c ∉ envs →
      untrack_environment s u c = none) := by
  refine ⟨?_, ?_, ?_⟩
  · intro s u c h
    refine ⟨(untrack_cases s u c).1 h, ?_⟩
    intro s' hs'
    rw [(untrack_cases s u c).1 h] at hs'
    simp only [Option.some.injEq] at hs'
    subst hs'
    simp [user_owns_environment, h]
  · intro s u c envs hget hc
    refine ⟨_, (untrack_cases s u c).2.1 envs hget hc, ?_, ?_, ?_, ?_⟩
    · exact dictGet_dictSet_self _ _ _
    · intro u' hu'
      exact dictGet_dictSet_ne _ _ _ _ hu'
    · exact dictGet_dictDel_self _ _
    · intro hcount
      have hz : (envs.erase c).count c = 0 := by
        rw [List.count_erase_self]
        omega
      have hnm : c ∉ envs.erase c := by
        intro hmem
        rw [List.count_eq_zero] at hz
        exact hz hmem
      simp [user_owns_environment, dictGet_dictSet_self, hnm]
  · intro s u c envs hget hc
    exact (untrack_cases s u c).2.2 envs hget hc

/-- Witness for untrack_amended: the ValueError branch at a user who tracks
only c1. -/
theorem untrack_amended_witness :
    dictGet (track_environment RMState.init "alice" "c1" 0).user_environments
      "alice" = some ["c1"] ∧
    untrack_environment (track_environment RMState.init "alice" "c1" 0)
      "alice" "c2" = none :=
  ⟨by decide,
   untrack_amended.2.2 (track_environment RMState.init "alice" "c1" 0)
     "alice" "c2" ["c1"] (by decide) (by decide)⟩

/-- C7: with no user identifier in the request, start, stop, pause and
delete never return AccessDenied; when docker is available and the container
exists they proceed against it regardless of who owns it. -/
theorem omitted_user_skips_ownership (rt : RtEnv) (dp : Option Nat)
    (e : String) (s : RMState) :
    (start_environment rt e none s ≠ LcOutcome.accessDenied ∧
     (stop_environment rt e none s).1 ≠ LcOutcome.accessDenied ∧
     pause_environment rt e none s ≠ LcOutcome.accessDenied ∧
     (delete_environment rt dp e none s).1 ≠ LcOutcome.accessDenied) ∧
    (rt.docker_available = true → ∀ st, rt.containers e = some st →
      start_environment rt e none s = LcOutcome.acted ∧
      (stop_environment rt e none s).1 = LcOutcome.acted ∧
      (delete_environment rt dp e none s).1 = LcOutcome.acted ∧
      pause_environment rt e none s =
        (if st = CStatus.running then LcOutcome.acted
         else LcOutcome.badState)) := by
  have hden : ownershipDenied s none e = false := rfl
  constructor
  · by_cases hd : rt.docker_available = false
    · refine ⟨?_, ?_, ?_, ?_⟩ <;>
        simp [start_environment, stop_environment, pause_environment,
          delete_environment, hd]
    · cases hc : rt.containers e with
      | none =>
          refine ⟨?_, ?_, ?_, ?_⟩ <;>
            simp [start_environment, stop_environment, pause_environment,
              delete_environment, hd, hc, hden]
      | some st =>
          cases st <;>
            (refine ⟨?_, ?_, ?_, ?_⟩ <;>
              simp [start_environment, stop_environment, pause_environment,
                delete_environment, hd, hc, hden])
  · intro hd st hc
    have hd' : ¬ rt.docker_available = false := by
      simp [hd]
    cases st <;>
      simp [start_environment, stop_environment, pause_environment,
        delete_environment, hd', hc, hden]

/-- Witness for omitted_user_skips_ownership: a request with no user id
starts an environment owned by someone else. -/
theorem omitted_user_skips_ownership_witness :
    (⟨true, fun _ => some CStatus.running⟩ : RtEnv).docker_available = true ∧
    (⟨true, fun _ => some CStatus.running⟩ : RtEnv).containers "c1" =
      some CStatus.running ∧
    start_environment ⟨true, fun _ => some CStatus.running⟩ "c1" none
      (track_environment RMState.init "alice" "c1" 0) = LcOutcome.acted :=
  ⟨rfl, rfl,
   ((omitted_user_skips_ownership ⟨true, fun _ => some CStatus.running⟩ none
      "c1" (track_environment RMState.init "alice" "c1" 0)).2 rfl
      CStatus.running rfl).1⟩

/-- C8: a successful stop of an environment tracked for its unique owner
removes the ownership record and the start-time entry: afterwards owns is
false and the environment no longer counts toward the quota check, while
the container itself still exists in the runtime. -/
theorem stop_untracks_owned (rt : RtEnv) (e u : String) (st : CStatus)
    (s : RMState) (envs : List String)
    (hdock : rt.docker_available = true)
    (hcont : rt.containers e = some st)
    (hnd : KeysNodup s) (hlnd : ListsNodup s) (huniq : UniqueOwnership s)
    (hget : dictGet s.user_environments u = some envs) (he : e ∈ envs) :
    rt.containers e = some st ∧
    ∃ s', stop_environment rt e (some u) s = (LcOutcome.acted, s') ∧
      user_owns_environment s' u e = false ∧
      dictGet s'.environment_start_times e = none ∧
      currentEnvCount s' u + 1 = currentEnvCount s u ∧
      ∀ qt q, dictGet RESOURCE_QUOTAS qt = some q →
        ((check_user_quota s' u qt).2 = some false ↔
          q.max_environments ≤ currentEnvCount s u - 1) := by
  have ho : user_owns_environment s u e = true := by
    simp [user_owns_environment, hget, he]
  have hnodup : envs.Nodup := hlnd (u, envs) (dictGet_mem hget)
  have hd' : ¬ rt.docker_available = false := by
    simp [hdock]
  have hden : ownershipDenied s (some u) e = false := by
    simp [ownershipDenied, ho]
  have hstop : stop_environment rt e (some u) s =
      (LcOutcome.acted, stopTrackingUpdate s e) := by
    simp [stop_environment, hd', hden, hcont]
  have hupd := stopTrackingUpdate_eq s u e envs hnd huniq hget he
  have hnm : e ∉ envs.erase e := fun hmem =>
    (List.Nodup.mem_erase_iff hnodup).mp hmem |>.1 rfl
  have hcnt : currentEnvCount (stopTrackingUpdate s e) u =
      envs.length - 1 := by
    rw [hupd]
    simp only [currentEnvCount, dictGet_dictSet_self, Option.getD_some]
    exact List.length_erase_of_mem he
  have hcnt0 : currentEnvCount s u = envs.length := by
    simp [currentEnvCount, hget]
  have hpos : 1 ≤ envs.length := List.length_pos.mpr
    (List.ne_nil_of_mem he)
  refine ⟨hcont, stopTrackingUpdate s e, hstop, ?_, ?_, ?_, ?_⟩
  · rw [hupd]
    simp [user_owns_environment, dictGet_dictSet_self, hnm]
  · rw [hupd]
    exact dictGet_dictDel_self _ _
  · omega
  · intro qt q hq
    rw [(check_user_quota_iff (stopTrackingUpdate s e) u qt q hq).1, hcnt,
      hcnt0]

/-- Witness for stop_untracks_owned: stopping the single tracked
environment of its owner. -/
theorem stop_untracks_owned_witness :
    ∃ s', stop_environment ⟨true, fun _ => some CStatus.running⟩ "c1"
        (some "alice") (track_environment RMState.init "alice" "c1" 0) =
        (LcOutcome.acted, s') ∧
      user_owns_environment s' "alice" "c1" = false ∧
      dictGet s'.environment_start_times "c1" = none ∧
      currentEnvCount s' "alice" + 1 =
        currentEnvCount (track_environment RMState.init "alice" "c1" 0)
          "alice" ∧
      ∀ qt q, dictGet RESOURCE_QUOTAS qt = some q →
        ((check_user_quota s' "alice" qt).2 = some false ↔
          q.max_environments ≤
            currentEnvCount (track_environment RMState.init "alice" "c1" 0)
              "alice" - 1) := by
  have huniq : UniqueOwnership
      (track_environment RMState.init "alice" "c1" 0) := by
    intro u1 u2 c h1 h2
    by_cases ha1 : "alice" = u1
    · by_cases ha2 : "alice" = u2
      · rw [← ha1, ← ha2]
      · exfalso
        revert h2
        simp [user_owns_environment, track_environment, ensureUserEntry,
          RMState.init, dictGet, dictSet, ha2]
    · exfalso
      revert h1
      simp [user_owns_environment, track_environment, ensureUserEntry,
        RMState.init, dictGet, dictSet, ha1]
  exact (stop_untracks_owned ⟨true, fun _ => some CStatus.running⟩ "c1"
    "alice" CStatus.running (track_environment RMState.init "alice" "c1" 0)
    ["c1"] rfl rfl (by unfold KeysNodup; decide)
    (by unfold ListsNodup; decide) huniq (by decide) (by decide)).2

/-- C9: release_port removes the port unconditionally and is an idempotent
no-op on unreserved ports; after allocate then release, a later allocate
over a range containing the port can return it again. -/
theorem release_port_idempotent :
    (∀ s p, release_port (release_port s p) p = release_port s p ∧
      p ∉ (release_port s p).allocated_ports) ∧
    (∀ s p, p ∉ s.allocated_ports → release_port s p = s) ∧
    (∀ s pe p, p ∉ pe.dockerPorts → pe.bindOk p = true →
      ∃ s', allocate_port (release_port s p) pe p 1 = some (s', p)) := by
  refine ⟨?_, ?_, ?_⟩
  · intro s p
    constructor
    · simp [release_port, Finset.erase_idem]
    · simp [release_port]
  · intro s p h
    unfold release_port
    rw [Finset.erase_eq_of_not_mem h]
  · intro s pe p h1 h2
    have e1 : p ∉ (release_port s p).allocated_ports := by
      simp [release_port]
    cases hal : allocate_port (release_port s p) pe p 1 with
    | none =>
        exfalso
        have hsk := (allocate_port_none_iff (release_port s p) pe p 1).mp hal
          p (le_refl p) (by omega)
        rcases hsk with hx | hx | hx
        · exact e1 hx
        · exact h1 hx
        · rw [h2] at hx
          exact absurd hx (by simp)
    | some pr =>
        obtain ⟨s', p'⟩ := pr
        have hsp := allocate_port_some_spec _ pe p 1 s' p' hal
        have hpp : p' = p := by omega
        subst hpp
        exact ⟨s', rfl⟩

/-- Witness for release_port_idempotent: releasing an unreserved port is a
no-op, and a released port is immediately reallocatable. -/
theorem release_port_idempotent_witness :
    (7001 ∉ (⟨[], [], {7000}⟩ : RMState).allocated_ports ∧
      release_port ⟨[], [], {7000}⟩ 7001 = ⟨[], [], {7000}⟩) ∧
    ∃ s', allocate_port (release_port ⟨[], [], {7000}⟩ 7000)
        ⟨∅, fun _ => true⟩ 7000 1 = some (s', 7000) :=
  ⟨⟨by decide, release_port_idempotent.2.1 ⟨[], [], {7000}⟩ 7001 (by decide)⟩,
   release_port_idempotent.2.2 ⟨[], [], {7000}⟩ ⟨∅, fun _ => true⟩ 7000
     (by decide) rfl⟩

/-- C10: usage aggregation returns all-zero for an untracked user; otherwise
environments counts every tracked container, running/paused count the
visible containers in those states, memory and CPU are summed only over
running containers whose stats query succeeds (memory rounded to two
decimals), and a container whose runtime query fails simply drops out of
those counts and sums without aborting the aggregation of the rest. -/
theorem usage_aggregation_spec :
    (∀ d s u, dictGet s.user_environments u = none →
      get_user_resource_usage d s u = ⟨0, 0, 0, 0, 0, 0⟩) ∧
    (∀ d s u envs, dictGet s.user_environments u = some envs →
      (get_user_resource_usage d s u).environments = envs.length ∧
      (get_user_resource_usage d s u).running_environments =
        (envs.filter (containerSeen d .running)).length ∧
      (get_user_resource_usage d s u).paused_environments =
        (envs.filter (containerSeen d .paused)).length ∧
      (get_user_resource_usage d s u).total_cpu_cores =
        ((envs.filter (statsCounted d)).map (containerCpu d)).sum ∧
      (get_user_resource_usage d s u).total_memory_gb =
        round2 (((envs.filter (statsCounted d)).map
          (containerMemGB d)).sum) ∧
      (get_user_resource_usage d s u).total_gpus =
        (envs.filter (statsCounted d)).length * d.busyGpus.getD 0) := by
  constructor
  · intro d s u h
    simp [get_user_resource_usage, h]
  · intro d s u envs h
    obtain ⟨hr, hp, hc, hm, hg⟩ := usage_foldl_spec d envs ⟨0, 0, 0, 0, 0⟩
    unfold get_user_resource_usage
    rw [h]
    refine ⟨rfl, ?_, ?_, ?_, ?_, ?_⟩ <;>
      simp [hr, hp, hc, hm, hg]

/-- Witness for usage_aggregation_spec: one running container with stats and
one paused container. -/
theorem usage_aggregation_spec_witness :
    dictGet (⟨[("alice", ["r1", "p1"])], [("r1", 0), ("p1", 0)], ∅⟩
        : RMState).user_environments "alice" = some ["r1", "p1"] ∧
    (get_user_resource_usage
      ⟨fun c => if c = "r1" then some ⟨CStatus.running, some ⟨2147483648, 4⟩⟩
        else if c = "p1" then some ⟨CStatus.paused, some ⟨0, 0⟩⟩
        else none, some 1⟩
      ⟨[("alice", ["r1", "p1"])], [("r1", 0), ("p1", 0)], ∅⟩
      "alice").running_environments =
      (["r1", "p1"].filter (containerSeen
        ⟨fun c => if c = "r1" then some ⟨CStatus.running, some ⟨2147483648, 4⟩⟩
          else if c = "p1" then some ⟨CStatus.paused, some ⟨0, 0⟩⟩
          else none, some 1⟩ CStatus.running)).length :=
  ⟨by decide,
   (usage_aggregation_spec.2
      ⟨fun c => if c = "r1" then some ⟨CStatus.running, some ⟨2147483648, 4⟩⟩
        else if c = "p1" then some ⟨CStatus.paused, some ⟨0, 0⟩⟩
        else none, some 1⟩
      ⟨[("alice", ["r1", "p1"])], [("r1", 0), ("p1", 0)], ∅⟩
      "alice" ["r1", "p1"] (by decide)).2.1⟩

end AILab
